import Mathlib

/-!
Shallow embedding of `src/keywrap/pkcs11/mod.rs` from ocicrypt-rs: the
PKCS11 key-wrapping strategy (`Pkcs11KeyWrapper`).

External collaborators (`parse_private_key`, `parse_public_key`,
`parse_pkcs11_config_file`, `encrypt_multiple`, `decrypt_pkcs11`, the
`Pkcs11UriWrapped` setters) live outside the provided source; they are
modelled from the spec as opaque parameters (`Externals`) or as plain
record updates, so every theorem quantifies over their behaviour.

Rust's `Result<T>` with `anyhow` errors becomes `Except KErr`, where
`KErr.err s` is an error value and `KErr.panic` models a Rust panic
(used for the unchecked `[0]` index in `p11conf_from_params`).
`HashMap<String, Vec<Vec<u8>>>` becomes an association list with
first-match lookup; byte blobs become `List Nat`.
-/

set_option autoImplicit false

namespace OcicryptPkcs11

/-- A byte blob (`Vec<u8>`). -/
abbrev Blob := List Nat

/-- The parameter map `HashMap<String, Vec<Vec<u8>>>`, modelled as an
association list with first-match lookup (keys are unique in a HashMap,
so first-match lookup is a faithful model). -/
abbrev Params := List (String × List Blob)

/-- `HashMap::get`, first-match association-list lookup. -/
def getParam (ps : Params) (k : String) : Option (List Blob) :=
  match ps with
  | [] => none
  | (k₀, v) :: rest => if k₀ = k then some v else getParam rest k

/-- Modelled from the spec: the token configuration consumed from
`crate::config::Pkcs11Config` — two ordered lists of filesystem path
patterns, `module_directories` and `allowed_module_paths`. -/
structure Pkcs11Config where
  module_directories : List String
  allowed_module_paths : List String
deriving DecidableEq

/-- Modelled from the spec: `crate::pkcs11_uri_wrapped::Pkcs11UriWrapped`,
a token URI together with its search-path override state; the setters
below replace the stored lists wholesale. -/
structure Pkcs11UriWrapped where
  uri : String
  module_directories : List String
  allowed_module_paths : List String
deriving DecidableEq

/-- `Pkcs11UriWrapped::set_module_directories`: replaces the stored
module-directory list. -/
def Pkcs11UriWrapped.set_module_directories (u : Pkcs11UriWrapped)
    (dirs : List String) : Pkcs11UriWrapped :=
  { u with module_directories := dirs }

/-- `Pkcs11UriWrapped::set_allowed_module_paths`: replaces the stored
allowed-module-path list. -/
def Pkcs11UriWrapped.set_allowed_module_paths (u : Pkcs11UriWrapped)
    (paths : List String) : Pkcs11UriWrapped :=
  { u with allowed_module_paths := paths }

/-- `Pkcs11KeyFileObject`: the pkcs11 key file with the URI wrapper
(source lines 18–20). -/
structure Pkcs11KeyFileObject where
  uriw : Pkcs11UriWrapped
deriving DecidableEq

/-- Modelled from the spec: `crate::utils::pkcs11::Pkcs11KeyType`, the
closed variant over key-descriptor kinds — `PKFO` is the token-backed
kind, `RPK` a raw (non-token-backed) key that is opaque to this core. -/
inductive Pkcs11KeyType where
  | PKFO : Pkcs11KeyFileObject → Pkcs11KeyType
  | RPK : Blob → Pkcs11KeyType
deriving DecidableEq

/-- Error model for `anyhow::Result`: `err` is an ordinary error value,
`panic` models a Rust panic (process abort, not a returned error). -/
inductive KErr where
  | err : String → KErr
  | panic : KErr
deriving DecidableEq

instance {ε α : Type} [DecidableEq ε] [DecidableEq α] :
    DecidableEq (Except ε α) := fun a b =>
  match a, b with
  | .ok x, .ok y =>
    if h : x = y then .isTrue (by rw [h]) else .isFalse (by simp [h])
  | .ok _, .error _ => .isFalse (by simp)
  | .error _, .ok _ => .isFalse (by simp)
  | .error x, .error y =>
    if h : x = y then .isTrue (by rw [h]) else .isFalse (by simp [h])

/-- Lift an external collaborator's `Except String` result into the
orchestrator's error type (the `?` operator on a delegated call). -/
def liftE {α : Type} (x : Except String α) : Except KErr α :=
  match x with
  | .ok a => .ok a
  | .error e => .error (KErr.err e)

/-- Modelled from the spec: the external collaborators of
`crate::utils::pkcs11` and `crate::config`, kept abstract. In the
source, `parse_private_key` is always called as
`parse_private_key(key, &[], "PKCS11")` and `parse_public_key` as
`parse_public_key(key, "PKCS11")`, so the constant arguments are
dropped here. -/
structure Externals where
  parse_private_key : Blob → Except String Pkcs11KeyType
  parse_public_key : Blob → Except String Pkcs11KeyType
  parse_pkcs11_config_file : Blob → Except String Pkcs11Config
  encrypt_multiple : List Pkcs11KeyType → Blob → Except String Blob
  decrypt_pkcs11 : List Pkcs11KeyFileObject → Blob → Except String Blob

/-- `crate::config::DecryptConfig` (the parts this core reads). -/
structure DecryptConfig where
  param : Params
deriving DecidableEq

/-- `crate::config::EncryptConfig` (the parts this core reads). -/
structure EncryptConfig where
  param : Params
  decrypt_config : Option DecryptConfig
deriving DecidableEq

/-- `iter().map(f).collect::<Result<Vec<_>>>()`: short-circuits at the
first erroring element. -/
def mapE {ε α β : Type} (f : α → Except ε β) : List α → Except ε (List β)
  | [] => .ok []
  | a :: as =>
    match f a with
    | .error e => .error e
    | .ok b =>
      match mapE f as with
      | .error e => .error e
      | .ok bs => .ok (b :: bs)

/-- `Pkcs11KeyWrapper::annotation_id` (source lines 82–84). -/
def annotation_id : String :=
  "org.opencontainers.image.enc.keys.pkcs11"

/-- `Pkcs11KeyWrapper::private_keys` (source lines 90–92): a plain map
lookup of `"pkcs11-yamls"`, cloned. -/
def private_keys (dcparameters : Params) : Option (List Blob) :=
  getParam dcparameters "pkcs11-yamls"

/-- `Pkcs11KeyWrapper::no_possible_keys` (source lines 86–88): the
negation of `isApplicable`. -/
def no_possible_keys (dcparameters : Params) : Bool :=
  (private_keys dcparameters).isNone

/-- The error message of `unwrap_keys` when `private_keys` is `None`. -/
def no_private_keys_msg : String :=
  "No private keys found for PKCS11 decryption"

/-- The error message of `wrap_keys` when `decrypt_config` is `None`
(the source string contains a line break and indentation). -/
def missing_decrypt_config_msg : String :=
  "EncryptConfig is missing\n                                        decrypt_config member"

/-- `p11conf_from_params` (source lines 99–108): `contains_key` guards
only the presence of `"pkcs11-config"`; the subsequent `[0]` index on
the value is unguarded, so an entry holding an empty sequence panics. -/
def p11conf_from_params (E : Externals) (dcparameters : Params) :
    Except KErr (Option Pkcs11Config) :=
  match getParam dcparameters "pkcs11-config" with
  | none => .ok none
  | some [] => .error KErr.panic
  | some (b :: _) =>
    match E.parse_pkcs11_config_file b with
    | .error e => .error (KErr.err e)
    | .ok c => .ok (some c)

/-- The in-place override of a `Pkcs11KeyFileObject`'s URI wrapper,
expressed as a pure record transform: when a configuration is present,
`set_module_directories` then `set_allowed_module_paths` (source lines
69–73 and 123–128); otherwise the object passes through unchanged. -/
def apply_conf_pkfo (copt : Option Pkcs11Config) (p : Pkcs11KeyFileObject) :
    Pkcs11KeyFileObject :=
  match copt with
  | none => p
  | some conf =>
    { uriw := (p.uriw.set_module_directories
        conf.module_directories).set_allowed_module_paths
        conf.allowed_module_paths }

/-- The same override on a `Pkcs11KeyType`: only the `PKFO` variant is
touched, other kinds pass through unmodified (source lines 122–131). -/
def apply_conf_key (copt : Option Pkcs11Config) (k : Pkcs11KeyType) :
    Pkcs11KeyType :=
  match k with
  | .PKFO p => .PKFO (apply_conf_pkfo copt p)
  | k => k

/-- `add_pub_keys` (source lines 110–134): early-returns `[]` on an
empty input, otherwise resolves the token configuration from the
decrypt config's parameters, parses every public key (one failure aborts
the whole call), and applies the overrides to each `PKFO` result. -/
def add_pub_keys (E : Externals) (dc : DecryptConfig) (pubkeys : List Blob) :
    Except KErr (List Pkcs11KeyType) :=
  if pubkeys.isEmpty then .ok []
  else
    match p11conf_from_params E dc.param with
    | .error e => .error e
    | .ok p11conf_opt =>
      match mapE (fun key => liftE (E.parse_public_key key)) pubkeys with
      | .error e => .error e
      | .ok parsed => .ok (parsed.map (apply_conf_key p11conf_opt))

/-- The candidate public-key list built at the top of `wrap_keys`
(source lines 26–32): `Vec::new()` extended first with the
`"pkcs11-pubkeys"` entries, then with the `"pkcs11-yamls"` entries;
absent keys contribute nothing. -/
def collected_pubkeys (ec : EncryptConfig) : List Blob :=
  (getParam ec.param "pkcs11-pubkeys").getD []
    ++ (getParam ec.param "pkcs11-yamls").getD []

/-- `Pkcs11KeyWrapper::wrap_keys` (source lines 25–50). The source
builds the pubkey list before checking `decrypt_config`; that
collection is pure, so hoisting it into `collected_pubkeys` preserves
the semantics. -/
def wrap_keys (E : Externals) (ec : EncryptConfig) (opts_data : Blob) :
    Except KErr Blob :=
  match ec.decrypt_config with
  | none => .error (KErr.err missing_decrypt_config_msg)
  | some decrypt_config_pubkeys =>
    match add_pub_keys E decrypt_config_pubkeys (collected_pubkeys ec) with
    | .error e => .error e
    | .ok pkcs11_recipients =>
      if pkcs11_recipients.isEmpty then .ok []
      else liftE (E.encrypt_multiple pkcs11_recipients opts_data)

/-- The private-key resolution performed by `unwrap_keys` before it
delegates (source lines 53–78): the `ok_or_else` on `private_keys`,
the token-configuration resolution, the parse of every private key
(one failure aborts), and the `filter_map` that keeps only `PKFO`
variants with overrides applied. -/
def unwrap_resolved (E : Externals) (dc : DecryptConfig) :
    Except KErr (List Pkcs11KeyFileObject) :=
  match private_keys dc.param with
  | none => .error (KErr.err no_private_keys_msg)
  | some priv_keys =>
    match p11conf_from_params E dc.param with
    | .error e => .error e
    | .ok p11conf_opt =>
      match mapE (fun key => liftE (E.parse_private_key key)) priv_keys with
      | .error e => .error e
      | .ok parsed =>
        .ok (parsed.filterMap (fun key =>
          match key with
          | .PKFO p => some (apply_conf_pkfo p11conf_opt p)
          | _ => none))

/-- `Pkcs11KeyWrapper::unwrap_keys` (source lines 52–80): resolution
followed by delegation to `decrypt_pkcs11`. -/
def unwrap_keys (E : Externals) (dc : DecryptConfig) (wrapped : Blob) :
    Except KErr Blob :=
  match unwrap_resolved E dc with
  | .error e => .error e
  | .ok pkcs11_keys => liftE (E.decrypt_pkcs11 pkcs11_keys wrapped)

/-! Concrete fixtures used by witnesses and counterexamples. -/

/-- A token-backed key file object with collaborator-default paths. -/
def pkfo0 : Pkcs11KeyFileObject :=
  ⟨⟨"pkcs11:token=t", ["libdefault"], ["pathdefault"]⟩⟩

/-- A token configuration with non-default search paths. -/
def conf0 : Pkcs11Config := ⟨["md1"], ["amp1"]⟩

/-- `pkfo0` after `conf0`'s overrides have been applied. -/
def pkfo_md : Pkcs11KeyFileObject := ⟨⟨"pkcs11:token=t", ["md1"], ["amp1"]⟩⟩

/-- Concrete external collaborators: the blob `[0]` is malformed, every
other blob parses to the token-backed `pkfo0`; configurations parse to
`conf0`; the encryption primitive returns the data unchanged and the
decryption primitive returns the blob unchanged. -/
def extOk : Externals :=
  ⟨fun b => if b = [0] then .error "bad private key descriptor"
            else .ok (.PKFO pkfo0),
   fun b => if b = [0] then .error "bad public key descriptor"
            else .ok (.PKFO pkfo0),
   fun _ => .ok conf0,
   fun _ data => .ok data,
   fun _ blob => .ok blob⟩

/-! Generic lemmas about the short-circuiting `mapE`. -/

theorem mapE_ok_length {ε α β : Type} (f : α → Except ε β) :
    ∀ (l : List α) (bs : List β), mapE f l = .ok bs → bs.length = l.length := by
  intro l
  induction l with
  | nil =>
    intro bs h
    simp [mapE] at h
    simp [← h]
  | cons a as ih =>
    intro bs h
    cases hfa : f a with
    | error e => simp [mapE, hfa] at h
    | ok b =>
      cases hm : mapE f as with
      | error e => simp [mapE, hfa, hm] at h
      | ok bs₀ =>
        simp [mapE, hfa, hm] at h
        simp [← h, ih bs₀ hm]

theorem mapE_ok_get {ε α β : Type} (f : α → Except ε β) :
    ∀ (l : List α) (bs : List β), mapE f l = .ok bs →
    ∀ (i : Nat) (h : i < l.length) (h' : i < bs.length),
      f (l.get ⟨i, h⟩) = .ok (bs.get ⟨i, h'⟩) := by
  intro l
  induction l with
  | nil => intro bs _ i h; exact absurd h (by simp)
  | cons a as ih =>
    intro bs hmap i h h'
    cases hfa : f a with
    | error e => simp [mapE, hfa] at hmap
    | ok b =>
      cases hm : mapE f as with
      | error e => simp [mapE, hfa, hm] at hmap
      | ok bs₀ =>
        simp [mapE, hfa, hm] at hmap
        subst hmap
        cases i with
        | zero => simpa using hfa
        | succ j =>
          exact ih bs₀ hm j (Nat.lt_of_succ_lt_succ h)
            (Nat.lt_of_succ_lt_succ h')

theorem mapE_mem_ok {ε α β : Type} (f : α → Except ε β) :
    ∀ (l : List α) (bs : List β), mapE f l = .ok bs →
    ∀ b ∈ bs, ∃ a, a ∈ l ∧ f a = .ok b := by
  intro l
  induction l with
  | nil =>
    intro bs h b hb
    simp [mapE] at h
    subst h
    simp at hb
  | cons a as ih =>
    intro bs hmap b hb
    cases hfa : f a with
    | error e => simp [mapE, hfa] at hmap
    | ok b₀ =>
      cases hm : mapE f as with
      | error e => simp [mapE, hfa, hm] at hmap
      | ok bs₀ =>
        simp [mapE, hfa, hm] at hmap
        subst hmap
        rcases List.mem_cons.mp hb with hb | hb
        · exact ⟨a, List.mem_cons_self a as, by rw [hfa, hb]⟩
        · rcases ih bs₀ hm b hb with ⟨a₀, ha₀, hfa₀⟩
          exact ⟨a₀, List.mem_cons_of_mem a ha₀, hfa₀⟩

theorem mapE_error_of_mem {ε α β : Type} (f : α → Except ε β) :
    ∀ (l : List α) (a : α) (e : ε), a ∈ l → f a = .error e →
    ∃ a' e', a' ∈ l ∧ f a' = .error e' ∧ mapE f l = .error e' := by
  intro l
  induction l with
  | nil => intro a e ha; exact absurd ha (by simp)
  | cons b t ih =>
    intro a e ha herr
    cases hfb : f b with
    | error eb =>
      exact ⟨b, eb, List.mem_cons_self b t, hfb, by simp [mapE, hfb]⟩
    | ok v =>
      have hat : a ∈ t := by
        rcases List.mem_cons.mp ha with h | h
        · subst h; rw [herr] at hfb; exact absurd hfb (by simp)
        · exact h
      rcases ih a e hat herr with ⟨a', e', ha', hfa', hm⟩
      exact ⟨a', e', List.mem_cons_of_mem b ha', hfa',
        by simp [mapE, hfb, hm]⟩

/-- C8: `annotation_id` always returns exactly the fixed string
`org.opencontainers.image.enc.keys.pkcs11`; the strategy object is a
fieldless struct, so the result depends on no input or state. -/
theorem annotation_id_fixed :
    annotation_id = "org.opencontainers.image.enc.keys.pkcs11" := rfl

/-- C3: when the encrypt configuration's decrypt-side bundle is absent,
`wrap_keys` fails with the missing-decrypt-context error for every
externals behaviour, parameter map and options data — in particular the
error is returned before the empty-blob check is ever reached. -/
theorem wrap_keys_missing_decrypt_config (E : Externals) (ec : EncryptConfig)
    (opts_data : Blob) (h : ec.decrypt_config = none) :
    wrap_keys E ec opts_data = .error (KErr.err missing_decrypt_config_msg) := by
  simp [wrap_keys, h]

/-- Witness for C3 at a configuration that does supply public keys. -/
theorem wrap_keys_missing_decrypt_config_witness :
    wrap_keys extOk ⟨[("pkcs11-pubkeys", [[1]])], none⟩ [7]
      = .error (KErr.err missing_decrypt_config_msg) :=
  wrap_keys_missing_decrypt_config extOk ⟨[("pkcs11-pubkeys", [[1]])], none⟩
    [7] rfl

/-- C10 counterexample: a map whose `"pkcs11-config"` entry is present
but holds an empty sequence makes `unwrap_keys` reach the unguarded
`[0]` index and panic, contradicting the claim that the first-element
access is guarded. -/
theorem p11conf_empty_seq_panics_cex :
    unwrap_keys extOk ⟨[("pkcs11-yamls", [[1]]), ("pkcs11-config", [])]⟩ [0]
      = .error KErr.panic := rfl

/-- C10 (amended): token-configuration resolution guards only the
presence of the `"pkcs11-config"` key (absence yields no configuration,
without panic); the `[0]` index on the entry is unguarded, so a map
whose entry is present but empty panics with an out-of-bounds access. -/
theorem p11conf_guard_charac (E : Externals) (params : Params) :
    (getParam params "pkcs11-config" = none →
      p11conf_from_params E params = .ok none) ∧
    (getParam params "pkcs11-config" = some [] →
      p11conf_from_params E params = .error KErr.panic) := by
  constructor <;> intro h <;> simp [p11conf_from_params, h]

/-- Witness for C10's amended statement at concrete maps. -/
theorem p11conf_guard_charac_witness :
    p11conf_from_params extOk [] = .ok none ∧
    p11conf_from_params extOk [("pkcs11-config", [])] = .error KErr.panic :=
  ⟨(p11conf_guard_charac extOk []).1 rfl,
   (p11conf_guard_charac extOk [("pkcs11-config", [])]).2 rfl⟩

/-- C1 counterexample: a map whose private-key entry is present but
empty makes `no_possible_keys` false (the strategy reports itself
applicable) while private-key resolution yields the empty list — so
applicability is not equivalent to non-empty resolution. -/
theorem no_possible_keys_empty_yamls_cex :
    no_possible_keys [("pkcs11-yamls", [])] = false ∧
    unwrap_resolved extOk ⟨[("pkcs11-yamls", [])]⟩ = .ok [] :=
  ⟨rfl, rfl⟩

/-- C1 (amended): applicability (the negation of `no_possible_keys`) is
true exactly when the `"pkcs11-yamls"` entry is present in the map,
regardless of whether its entries are empty or resolve to no
token-backed descriptor; in particular whenever private-key resolution
succeeds with a non-empty list, the strategy is applicable. -/
theorem no_possible_keys_charac (params : Params) :
    (no_possible_keys params = false ↔
      (getParam params "pkcs11-yamls").isSome = true) ∧
    (∀ (E : Externals) (ks : List Pkcs11KeyFileObject),
      unwrap_resolved E ⟨params⟩ = .ok ks → ks ≠ [] →
      no_possible_keys params = false) := by
  constructor
  · cases hp : getParam params "pkcs11-yamls" <;>
      simp [no_possible_keys, private_keys, hp]
  · intro E ks h _
    cases hp : getParam params "pkcs11-yamls" with
    | none => simp [unwrap_resolved, private_keys, hp] at h
    | some l => simp [no_possible_keys, private_keys, hp]

/-- Witness for C1's amended statement: one valid private-key entry
resolves to one token-backed descriptor and makes the strategy
applicable. -/
theorem no_possible_keys_charac_witness :
    no_possible_keys [("pkcs11-yamls", [[1]])] = false :=
  (no_possible_keys_charac [("pkcs11-yamls", [[1]])]).2 extOk [pkfo0]
    rfl (by simp)

/-- C2 counterexample: with the private-key entry present but holding
an empty sequence, resolution yields zero descriptors, yet `unwrap_keys`
does not fail with the no-private-keys error — it delegates to the
external decryption primitive (which here returns the blob unchanged). -/
theorem unwrap_keys_empty_yamls_delegates_cex :
    unwrap_resolved extOk ⟨[("pkcs11-yamls", [])]⟩ = .ok [] ∧
    unwrap_keys extOk ⟨[("pkcs11-yamls", [])]⟩ [9] = .ok [9] :=
  ⟨rfl, rfl⟩

/-- C2 (amended): `unwrap_keys` fails with the no-private-keys error
exactly when the `"pkcs11-yamls"` entry is absent from the map; when the
entry is present but resolution yields zero descriptors (empty sequence,
or all entries of non-token-backed kind), `unwrap_keys` instead
delegates to the external decryption primitive with the empty
descriptor list. -/
theorem unwrap_keys_no_private_keys_charac (E : Externals)
    (dc : DecryptConfig) (wrapped : Blob) :
    (getParam dc.param "pkcs11-yamls" = none →
      unwrap_keys E dc wrapped = .error (KErr.err no_private_keys_msg)) ∧
    (unwrap_resolved E dc = .ok [] →
      unwrap_keys E dc wrapped = liftE (E.decrypt_pkcs11 [] wrapped)) := by
  constructor
  · intro h; simp [unwrap_keys, unwrap_resolved, private_keys, h]
  · intro h; simp [unwrap_keys, h]

/-- Witness for C2's amended statement at concrete maps. -/
theorem unwrap_keys_no_private_keys_charac_witness :
    unwrap_keys extOk ⟨[]⟩ [1] = .error (KErr.err no_private_keys_msg) ∧
    unwrap_keys extOk ⟨[("pkcs11-yamls", [])]⟩ [1]
      = liftE (extOk.decrypt_pkcs11 [] [1]) :=
  ⟨(unwrap_keys_no_private_keys_charac extOk ⟨[]⟩ [1]).1 rfl,
   (unwrap_keys_no_private_keys_charac extOk ⟨[("pkcs11-yamls", [])]⟩ [1]).2
     rfl⟩

theorem add_pub_keys_encrypt_irrel (E : Externals)
    (f : List Pkcs11KeyType → Blob → Except String Blob)
    (dc : DecryptConfig) (pubkeys : List Blob) :
    add_pub_keys { E with encrypt_multiple := f } dc pubkeys
      = add_pub_keys E dc pubkeys := rfl

/-- C4: with the decrypt-side bundle present, when recipient resolution
yields the empty list, `wrap_keys` returns the empty blob, and it does
so for every behaviour of the external multi-recipient encryption
primitive — i.e. the primitive is never invoked. -/
theorem wrap_keys_empty_recipients (E : Externals) (ec : EncryptConfig)
    (dcp : DecryptConfig) (opts_data : Blob)
    (hdc : ec.decrypt_config = some dcp)
    (hrec : add_pub_keys E dcp (collected_pubkeys ec) = .ok []) :
    ∀ f, wrap_keys { E with encrypt_multiple := f } ec opts_data = .ok [] := by
  intro f
  simp [wrap_keys, hdc, add_pub_keys_encrypt_irrel, hrec]

/-- Witness for C4: no public keys supplied, and an encryption
primitive that would fail if it were ever called. -/
theorem wrap_keys_empty_recipients_witness :
    wrap_keys { extOk with encrypt_multiple := fun _ _ => .error "never" }
      ⟨[], some ⟨[]⟩⟩ [5] = .ok [] :=
  wrap_keys_empty_recipients extOk ⟨[], some ⟨[]⟩⟩ ⟨[]⟩ [5] rfl rfl
    (fun _ _ => .error "never")

/-- C5: when token-configuration resolution over the governing bundle
yields a configuration, every token-backed descriptor produced by the
wrap-side resolution (`add_pub_keys`) and by the unwrap-side resolution
(`unwrap_resolved`) carries exactly the configuration's
module-directory and allowed-module-path lists — the override wholly
replaces the parsed descriptor's own lists, with no merging. -/
theorem override_propagation (E : Externals) (conf : Pkcs11Config) :
    (∀ (dc : DecryptConfig) (pubkeys : List Blob)
       (keys : List Pkcs11KeyType),
      p11conf_from_params E dc.param = .ok (some conf) →
      add_pub_keys E dc pubkeys = .ok keys →
      ∀ p, Pkcs11KeyType.PKFO p ∈ keys →
        p.uriw.module_directories = conf.module_directories ∧
        p.uriw.allowed_module_paths = conf.allowed_module_paths) ∧
    (∀ (dc : DecryptConfig) (ks : List Pkcs11KeyFileObject),
      p11conf_from_params E dc.param = .ok (some conf) →
      unwrap_resolved E dc = .ok ks →
      ∀ p ∈ ks,
        p.uriw.module_directories = conf.module_directories ∧
        p.uriw.allowed_module_paths = conf.allowed_module_paths) := by
  constructor
  · intro dc pubkeys keys hconf hkeys p hp
    by_cases hpe : pubkeys.isEmpty
    · simp [add_pub_keys, hpe] at hkeys
      subst hkeys
      simp at hp
    · simp [add_pub_keys, hpe, hconf] at hkeys
      cases hm : mapE (fun key => liftE (E.parse_public_key key)) pubkeys with
      | error e => rw [hm] at hkeys; simp at hkeys
      | ok parsed =>
        rw [hm] at hkeys
        simp at hkeys
        subst hkeys
        rcases List.mem_map.mp hp with ⟨k, _, hak⟩
        cases k with
        | PKFO q =>
          simp [apply_conf_key] at hak
          subst hak
          simp [apply_conf_pkfo, Pkcs11UriWrapped.set_module_directories,
            Pkcs11UriWrapped.set_allowed_module_paths]
        | RPK b => simp [apply_conf_key] at hak
  · intro dc ks hconf hres p hp
    cases hpk : private_keys dc.param with
    | none => simp [unwrap_resolved, hpk] at hres
    | some priv_keys =>
      simp [unwrap_resolved, hpk, hconf] at hres
      cases hm : mapE (fun key => liftE (E.parse_private_key key)) priv_keys with
      | error e => rw [hm] at hres; simp at hres
      | ok parsed =>
        rw [hm] at hres
        simp at hres
        subst hres
        rcases List.mem_filterMap.mp hp with ⟨k, _, hak⟩
        cases k with
        | PKFO q =>
          simp at hak
          subst hak
          simp [apply_conf_pkfo, Pkcs11UriWrapped.set_module_directories,
            Pkcs11UriWrapped.set_allowed_module_paths]
        | RPK b => simp at hak

/-- Witness for C5: a parsed descriptor with collaborator-default paths
comes out of `add_pub_keys` carrying exactly `conf0`'s paths. -/
theorem override_propagation_witness :
    pkfo_md.uriw.module_directories = conf0.module_directories ∧
    pkfo_md.uriw.allowed_module_paths = conf0.allowed_module_paths :=
  (override_propagation extOk conf0).1 ⟨[("pkcs11-config", [[2]])]⟩ [[1]]
    [Pkcs11KeyType.PKFO pkfo_md] rfl rfl pkfo_md (by simp)

/-- C6 counterexample: this map contains an invalid private-key entry
(`[0]`, next to the valid `[1]` and `[2]`), yet `unwrap_keys` does not
fail with a parse error — the unguarded empty `"pkcs11-config"` entry
makes the call panic before any private key is parsed. -/
theorem unwrap_parse_error_preempted_cex :
    extOk.parse_private_key [0] = .error "bad private key descriptor" ∧
    unwrap_keys extOk
      ⟨[("pkcs11-yamls", [[1], [0], [2]]), ("pkcs11-config", [])]⟩ [5]
      = .error KErr.panic :=
  ⟨rfl, rfl⟩

/-- C6 (amended): provided token-configuration resolution itself
succeeds (otherwise its error or panic preempts key parsing), a map
containing at least one invalid private-key entry makes `unwrap_keys`
fail with the key-parse error of some (the first) erroring entry, with
no partial result, even when other entries in the sequence are valid. -/
theorem unwrap_keys_parse_error_fatal (E : Externals) (dc : DecryptConfig)
    (wrapped : Blob) (ks : List Blob) (copt : Option Pkcs11Config)
    (k : Blob) (e : String)
    (hks : private_keys dc.param = some ks)
    (hconf : p11conf_from_params E dc.param = .ok copt)
    (hk : k ∈ ks) (he : E.parse_private_key k = .error e) :
    ∃ k' e', k' ∈ ks ∧ E.parse_private_key k' = .error e' ∧
      unwrap_keys E dc wrapped = .error (KErr.err e') := by
  have hlift : liftE (E.parse_private_key k) = .error (KErr.err e) := by
    simp [liftE, he]
  rcases mapE_error_of_mem (fun key => liftE (E.parse_private_key key))
      ks k (KErr.err e) hk hlift with ⟨k', ee, hk', hfk', hm⟩
  cases hpk : E.parse_private_key k' with
  | ok v => simp [liftE, hpk] at hfk'
  | error e₀ =>
    simp [liftE, hpk] at hfk'
    subst hfk'
    exact ⟨k', e₀, hk', hpk,
      by simp [unwrap_keys, unwrap_resolved, hks, hconf, hm]⟩

/-- Witness for C6's amended statement: the middle entry is invalid and
the whole call fails with its parse error. -/
theorem unwrap_keys_parse_error_fatal_witness :
    ∃ k' e', k' ∈ [[1], [0], [2]] ∧
      extOk.parse_private_key k' = .error e' ∧
      unwrap_keys extOk ⟨[("pkcs11-yamls", [[1], [0], [2]])]⟩ [5]
        = .error (KErr.err e') :=
  unwrap_keys_parse_error_fatal extOk ⟨[("pkcs11-yamls", [[1], [0], [2]])]⟩
    [5] [[1], [0], [2]] none [0] "bad private key descriptor"
    rfl rfl (by simp) rfl

theorem get_map_aux {α β : Type} (f : α → β) :
    ∀ (l : List α) (i : Nat) (h : i < (l.map f).length) (h₀ : i < l.length),
      (l.map f).get ⟨i, h⟩ = f (l.get ⟨i, h₀⟩) := by
  intro l
  induction l with
  | nil => intro i h; exact absurd h (by simp)
  | cons a t ih =>
    intro i h h₀
    cases i with
    | zero => rfl
    | succ j =>
      exact ih j (by simpa using Nat.lt_of_succ_lt_succ h)
        (Nat.lt_of_succ_lt_succ h₀)

/-- C7: the wrap-side candidate list is the concatenation of the raw
`"pkcs11-pubkeys"` entries followed by all `"pkcs11-yamls"` entries;
resolution processes every entry (output length equals input length, so
nothing is dropped and nothing is deduplicated), each output descriptor
being the parse of the corresponding input entry with the override
applied, and `wrap_keys` hands exactly the resolved list to the
external encryption primitive. -/
theorem wrap_keys_concat_all (E : Externals) (ec : EncryptConfig)
    (dcp : DecryptConfig) (opts_data : Blob) (keys : List Pkcs11KeyType)
    (hdc : ec.decrypt_config = some dcp)
    (hkeys : add_pub_keys E dcp (collected_pubkeys ec) = .ok keys) :
    collected_pubkeys ec
      = (getParam ec.param "pkcs11-pubkeys").getD []
        ++ (getParam ec.param "pkcs11-yamls").getD [] ∧
    keys.length = (collected_pubkeys ec).length ∧
    (¬ (collected_pubkeys ec).isEmpty →
      ∃ copt, p11conf_from_params E dcp.param = .ok copt ∧
        ∀ (i : Nat) (h : i < (collected_pubkeys ec).length)
          (h₀ : i < keys.length),
          ∃ k, E.parse_public_key ((collected_pubkeys ec).get ⟨i, h⟩)
              = .ok k ∧
            keys.get ⟨i, h₀⟩ = apply_conf_key copt k) ∧
    (keys.isEmpty = false →
      wrap_keys E ec opts_data
        = liftE (E.encrypt_multiple keys opts_data)) := by
  by_cases hpe : (collected_pubkeys ec).isEmpty
  · simp [add_pub_keys, hpe] at hkeys
    subst hkeys
    have hc : collected_pubkeys ec = [] := by
      cases hcc : collected_pubkeys ec with
      | nil => rfl
      | cons a t => rw [hcc] at hpe; simp at hpe
    refine ⟨rfl, ?_, ?_, ?_⟩
    · rw [hc]; rfl
    · intro hne; exact absurd hpe hne
    · intro hne; simp at hne
  · simp [add_pub_keys, hpe] at hkeys
    cases hconf : p11conf_from_params E dcp.param with
    | error e => rw [hconf] at hkeys; simp at hkeys
    | ok copt =>
      rw [hconf] at hkeys
      simp at hkeys
      cases hm : mapE (fun key => liftE (E.parse_public_key key))
          (collected_pubkeys ec) with
      | error e => rw [hm] at hkeys; simp at hkeys
      | ok parsed =>
        rw [hm] at hkeys
        simp at hkeys
        subst hkeys
        have hadd : add_pub_keys E dcp (collected_pubkeys ec)
            = .ok (List.map (apply_conf_key copt) parsed) := by
          simp [add_pub_keys, hpe, hconf, hm]
        refine ⟨rfl, ?_, ?_, ?_⟩
        · rw [List.length_map, mapE_ok_length _ _ _ hm]
        · intro _
          refine ⟨copt, rfl, ?_⟩
          intro i h h₀
          have hp : i < parsed.length := by
            rw [mapE_ok_length _ _ _ hm]; exact h
          have hg : liftE (E.parse_public_key
              ((collected_pubkeys ec).get ⟨i, h⟩))
              = .ok (parsed.get ⟨i, hp⟩) := mapE_ok_get _ _ _ hm i h hp
          cases hpk : E.parse_public_key
              ((collected_pubkeys ec).get ⟨i, h⟩) with
          | error e => rw [hpk] at hg; simp [liftE] at hg
          | ok k =>
            rw [hpk] at hg
            simp [liftE] at hg
            refine ⟨k, rfl, ?_⟩
            rw [get_map_aux (apply_conf_key copt) parsed i h₀ hp]
            subst hg
            rfl
        · intro hne
          simp [wrap_keys, hdc, hadd, hne]

/-- Witness for C7: one raw public key and one descriptor-yaml entry
yield exactly two resolved recipients, in order. -/
theorem wrap_keys_concat_all_witness :
    ([Pkcs11KeyType.PKFO pkfo0, Pkcs11KeyType.PKFO pkfo0] :
        List Pkcs11KeyType).length
      = (collected_pubkeys
          ⟨[("pkcs11-pubkeys", [[1]]), ("pkcs11-yamls", [[2]])],
            some ⟨[]⟩⟩).length :=
  (wrap_keys_concat_all extOk
    ⟨[("pkcs11-pubkeys", [[1]]), ("pkcs11-yamls", [[2]])], some ⟨[]⟩⟩
    ⟨[]⟩ [5] [.PKFO pkfo0, .PKFO pkfo0] rfl rfl).2.1

/-- C9: round-trip — whenever the wrap side resolves a non-empty
recipient list, the unwrap side resolves its private descriptors, and
the external primitives behave as specified on those descriptors
(decryption inverts encryption for this key pair), unwrapping the blob
produced by wrapping options data `D` returns exactly `D`. -/
theorem wrap_unwrap_round_trip (E : Externals) (ec : EncryptConfig)
    (dc : DecryptConfig) (dcp : DecryptConfig) (D blob : Blob)
    (recips : List Pkcs11KeyType) (privs : List Pkcs11KeyFileObject)
    (hdc : ec.decrypt_config = some dcp)
    (hrec : add_pub_keys E dcp (collected_pubkeys ec) = .ok recips)
    (hne : recips ≠ [])
    (hpriv : unwrap_resolved E dc = .ok privs)
    (henc : E.encrypt_multiple recips D = .ok blob)
    (hdec : E.decrypt_pkcs11 privs blob = .ok D) :
    wrap_keys E ec D = .ok blob ∧ unwrap_keys E dc blob = .ok D := by
  constructor
  · have hia : recips.isEmpty = false := by
      cases recips with
      | nil => exact absurd rfl hne
      | cons a t => rfl
    simp [wrap_keys, hdc, hrec, hia, liftE, henc]
  · simp [unwrap_keys, hpriv, liftE, hdec]

/-- Witness for C9 with a concrete token-backed key pair and primitives
for which decryption inverts encryption. -/
theorem wrap_unwrap_round_trip_witness :
    wrap_keys extOk ⟨[("pkcs11-pubkeys", [[1]])], some ⟨[]⟩⟩ [7, 8]
        = .ok [7, 8] ∧
    unwrap_keys extOk ⟨[("pkcs11-yamls", [[1]])]⟩ [7, 8] = .ok [7, 8] :=
  wrap_unwrap_round_trip extOk ⟨[("pkcs11-pubkeys", [[1]])], some ⟨[]⟩⟩
    ⟨[("pkcs11-yamls", [[1]])]⟩ ⟨[]⟩ [7, 8] [7, 8]
    [.PKFO pkfo0] [pkfo0] rfl rfl (by simp) rfl rfl rfl

end OcicryptPkcs11
